import Mathlib

/-!
Shallow embedding of the @biconomy/passkey package (bcnmy/passkey):
`src/toWebAuthnKey.ts` and `src/toPasskeyValidator.ts`, together with the
helper functions those files import from the package modules `./utils` and
`./constants`, which are not present in this snapshot and are therefore
modelled from the specification (each such definition is marked
`Modelled from the spec:`).

Machine integers: TypeScript `bigint` values are embedded as `Nat` / `Int`;
byte arrays (`Uint8Array`, `Buffer`) as `List Nat` with entries below 256;
hex strings and base64 strings as `String`.  External effects (HTTP fetches,
WebAuthn ceremonies, WebCrypto key import) are made explicit: ceremony and
server responses are parameters of the embedded flows, and the side effects
a flow performs are returned as an explicit `List Effect` trace, so that
"fails before the ceremony is invoked" is a statement about that trace.
-/

namespace Passkey

/-- Error taxonomy of the package (spec section 7): each constructor
corresponds to one `throw new Error(...)` site of the source, plus
`PlatformError` for exceptions raised by platform primitives (`atob`,
viem range checks) that are outside the spec taxonomy. -/
inductive PasskeyError
  | UnsupportedMessageFormat
  | ChainIdUnavailable
  | MalformedSignature
  | UnexpectedClientDataShape
  | InvalidPublicKeyEncoding
  | RegistrationNotVerified
  | LoginNotVerified
  | MissingPublicKey
  | MissingAuthenticatorId
  | PlatformError
  deriving DecidableEq, Repr

/-- Observable external effects of the flows: HTTP round trips to the
passkey server, platform WebAuthn ceremonies, and the WebCrypto
key-import step performed during public-key derivation. -/
inductive Effect
  | fetchRegisterOptions
  | startRegistration
  | fetchRegisterVerify
  | fetchLoginOptions
  | startAuthenticationEffect
  | fetchLoginVerify
  | importKey
  deriving DecidableEq, Repr

/-! ## Byte-level helpers -/

/-- Value of a big-endian byte string (most significant byte first). -/
def beBytesToNat : List Nat → Nat
  | [] => 0
  | b :: bs => b * 256 ^ bs.length + beBytesToNat bs

/-- Big-endian encoding of `v` on exactly `n` bytes (truncating above). -/
def natToBEBytes : Nat → Nat → List Nat
  | 0, _ => []
  | n + 1, v => natToBEBytes n (v / 256) ++ [v % 256]

theorem natToBEBytes_length (n v : Nat) : (natToBEBytes n v).length = n := by
  induction n generalizing v with
  | zero => rfl
  | succ n ih => simp [natToBEBytes, ih]

theorem beBytesToNat_append_singleton (bs : List Nat) (b : Nat) :
    beBytesToNat (bs ++ [b]) = 256 * beBytesToNat bs + b := by
  induction bs with
  | nil => simp [beBytesToNat]
  | cons c bs ih =>
    simp only [List.cons_append, beBytesToNat, List.append_eq, ih,
      List.length_append, List.length_cons, List.length_nil, pow_succ, pow_zero]
    ring

theorem natToBEBytes_beBytesToNat (bs : List Nat) (h : ∀ b ∈ bs, b < 256) :
    natToBEBytes bs.length (beBytesToNat bs) = bs := by
  induction bs using List.reverseRecOn with
  | nil => rfl
  | append_singleton bs b ih =>
    have hb : b < 256 := h b (by simp)
    have hbs : ∀ x ∈ bs, x < 256 := fun x hx => h x (by simp [hx])
    simp only [List.length_append, List.length_cons, List.length_nil,
      beBytesToNat_append_singleton, natToBEBytes]
    have hdiv : (256 * beBytesToNat bs + b) / 256 = beBytesToNat bs := by
      omega
    have hmod : (256 * beBytesToNat bs + b) % 256 = b := by
      omega
    rw [hdiv, hmod, ih hbs]

/-! ## Hex strings -/

/-- Value of a single hexadecimal digit character, as in JS `parseInt(c, 16)`. -/
def hexCharVal (c : Char) : Option Nat :=
  let n := c.toNat
  if 48 ≤ n && n ≤ 57 then some (n - 48)
  else if 97 ≤ n && n ≤ 102 then some (n - 87)
  else if 65 ≤ n && n ≤ 70 then some (n - 55)
  else none

/-- Strict hex decoding: an even-length string of hex digits, two digits per
byte; anything else is rejected. -/
def hexPairsToBytes : List Char → Option (List Nat)
  | [] => some []
  | c1 :: c2 :: rest => do
    let h ← hexCharVal c1
    let l ← hexCharVal c2
    let bs ← hexPairsToBytes rest
    pure ((16 * h + l) :: bs)
  | [_] => none

/-- Lowercase hex digit character of a value below 16. -/
def hexDigitChar (n : Nat) : Char :=
  if n < 10 then Char.ofNat (48 + n) else Char.ofNat (87 + n)

/-- Modelled from the spec: `uint8ArrayToHexString` of the absent `./utils`
module, which renders a byte array as a 0x-prefixed lowercase hex string. -/
def uint8ArrayToHexString (bs : List Nat) : String :=
  "0x" ++ String.mk (bs.flatMap (fun b => [hexDigitChar (b / 16 % 16), hexDigitChar (b % 16)]))

/-- Modelled from the spec: `hexStringToUint8Array` of the absent `./utils`
module.  Lenient hex decoder used only to build the ceremony challenge
(which no claim inspects): strips an optional 0x prefix is done by the
caller; bad digits decode as 0 and a trailing odd digit is dropped. -/
def hexPairsLoose : List Char → List Nat
  | [] => []
  | [_] => []
  | c1 :: c2 :: rest =>
    (16 * (hexCharVal c1).getD 0 + (hexCharVal c2).getD 0) :: hexPairsLoose rest

/-- Removal of an optional `0x` prefix
(`s.startsWith("0x") ? s.slice(2) : s`), at the character level. -/
def strip0x : List Char → List Char
  | '0' :: 'x' :: rest => rest
  | cs => cs

/-- Modelled from the spec: see `hexPairsLoose`. -/
def hexStringToUint8Array (s : String) : List Nat :=
  hexPairsLoose (strip0x s.data)

/-! ## Base64 / base64url -/

/-- Value of a base64 character, accepting both the standard and the url-safe
alphabet (the absent `./utils` converts url-safe input to standard before
decoding, so the two alphabets decode alike). -/
def b64CharVal (c : Char) : Option Nat :=
  let n := c.toNat
  if 65 ≤ n && n ≤ 90 then some (n - 65)
  else if 97 ≤ n && n ≤ 122 then some (n - 71)
  else if 48 ≤ n && n ≤ 57 then some (n + 4)
  else if n = 43 || n = 45 then some 62
  else if n = 47 || n = 95 then some 63
  else none

/-- Reassemble 6-bit groups into bytes: full groups of four sextets give
three bytes, a trailing group of two or three sextets gives one or two
bytes, and a trailing single sextet is malformed. -/
def sextetsToBytes : List Nat → Option (List Nat)
  | [] => some []
  | [_] => none
  | [a, b] => some [a * 4 + b / 16]
  | [a, b, c] => some [a * 4 + b / 16, b % 16 * 16 + c / 4]
  | a :: b :: c :: d :: rest => do
    let bs ← sextetsToBytes rest
    pure ((a * 4 + b / 16) :: (b % 16 * 16 + c / 4) :: (c % 4 * 64 + d) :: bs)

/-- Base64 / base64url decoding of a string to bytes, ignoring trailing
`=` padding. -/
def b64decode (s : String) : Option (List Nat) := do
  let chars := s.data.filter (fun c => c.toNat ≠ 61)
  let sextets ← chars.mapM b64CharVal
  sextetsToBytes sextets

/-- Modelled from the spec: `b64ToBytes` of the absent `./utils` module,
which pads a base64url string, converts it to the standard alphabet and
decodes it with `atob`; a malformed string makes `atob` throw, embedded
here as `PlatformError`. -/
def b64ToBytes (s : String) : Except PasskeyError (List Nat) :=
  match b64decode s with
  | some bs => .ok bs
  | none => .error .PlatformError

/-- Platform `atob`: base64 decoding to a latin-1 character string. -/
def atobStr (s : String) : Except PasskeyError String :=
  match b64decode s with
  | some bs => .ok (String.mk (bs.map Char.ofNat))
  | none => .error .PlatformError

/-- Base64 alphabet character of a sextet (standard or url-safe). -/
def b64Char (urlSafe : Bool) (n : Nat) : Char :=
  if n ≤ 25 then Char.ofNat (65 + n)
  else if n ≤ 51 then Char.ofNat (71 + n)
  else if n ≤ 61 then Char.ofNat (n - 4)
  else if n = 62 then (if urlSafe then Char.ofNat 45 else Char.ofNat 43)
  else (if urlSafe then Char.ofNat 95 else Char.ofNat 47)

/-- Base64 encoding of a byte list (without padding characters). -/
def bytesToB64Chars (urlSafe : Bool) : List Nat → List Char
  | [] => []
  | [a] => [b64Char urlSafe (a / 4), b64Char urlSafe (a % 4 * 16)]
  | [a, b] =>
    [b64Char urlSafe (a / 4), b64Char urlSafe (a % 4 * 16 + b / 16),
     b64Char urlSafe (b % 16 * 4)]
  | a :: b :: c :: rest =>
    b64Char urlSafe (a / 4) :: b64Char urlSafe (a % 4 * 16 + b / 16) ::
    b64Char urlSafe (b % 16 * 4 + c / 64) :: b64Char urlSafe (c % 64) ::
    bytesToB64Chars urlSafe rest

/-- Modelled from the spec: `base64FromUint8Array` of the absent `./utils`
module (`btoa` plus url-safe character replacement and padding removal);
used only to build the ceremony challenge. -/
def base64FromUint8Array (bs : List Nat) (urlSafe : Bool) : String :=
  String.mk (bytesToB64Chars urlSafe bs)

/-! ## Signature normalizer (spec section 4.1) -/

/-- Order of the NIST P-256 curve (the fixed constant of spec section 4.1). -/
def p256Order : Nat :=
  0xFFFFFFFF00000000FFFFFFFFFFFFFFFFBCE6FAADA7179E84F3B9CAC2FC632551

/-- Parse one DER INTEGER (`0x02 tag`, short-form length, big-endian body)
at the head of a byte list, returning its value and the remaining bytes. -/
def parseDERInt : List Nat → Option (Nat × List Nat)
  | 2 :: len :: rest =>
    if len ≤ 127 ∧ len ≤ rest.length then
      some (beBytesToNat (rest.take len), rest.drop len)
    else none
  | _ => none

/-- Parse a DER ECDSA signature: a SEQUENCE (`0x30 tag`, short-form length)
holding exactly two INTEGERs `r` then `s`. -/
def parseDERSignature (bytes : List Nat) : Option (Nat × Nat) :=
  match bytes with
  | 48 :: len :: body =>
    if len = body.length ∧ len ≤ 127 then
      match parseDERInt body with
      | some (r, rest) =>
        match parseDERInt rest with
        | some (s, rest2) => if rest2 = [] then some (r, s) else none
        | none => none
      | none => none
    else none
  | _ => none

/-- Canonical low-s normalization of spec section 4.1: `s` is replaced by
`p256Order - s` whenever `s > p256Order / 2` (TypeScript `bigint`
subtraction, hence the `Int` result). -/
def normalizeS (s : Nat) : Int :=
  if p256Order / 2 < s then (p256Order : Int) - (s : Int) else (s : Int)

/-- Modelled from the spec: `parseAndNormalizeSig` of the absent `./utils`
module (spec section 4.1).  Input is a 0x-prefixed hex DER signature;
malformed hex or DER fails with `MalformedSignature`. -/
def parseAndNormalizeSig (sigHex : String) : Except PasskeyError (Nat × Int) :=
  match hexPairsToBytes (strip0x sigHex.data) with
  | none => .error .MalformedSignature
  | some bytes =>
    match parseDERSignature bytes with
    | none => .error .MalformedSignature
    | some (r, s) => .ok (r, normalizeS s)

/-! ## ClientData locator (spec section 4.2) -/

/-- Index of the first occurrence of `pat` in `l`, if any. -/
def strIndexOf (pat : List Char) : List Char → Option Nat
  | [] => if pat.isEmpty then some 0 else none
  | c :: cs =>
    if pat.isPrefixOf (c :: cs) then some 0
    else (strIndexOf pat cs).map (· + 1)

/-- Substring located for the challenge field. -/
def challengePat : List Char := "\"challenge\"".data

/-- Substring located for the type field; its final character is the opening
quote of the type value. -/
def typePat : List Char := "\"type\":\"".data

/-- Modelled from the spec: `findQuoteIndices` of the absent `./utils`
module (spec section 4.2).  Locates the `"challenge"` substring and the
`"type":"` substring; the returned `beforeType` component is the count of
characters before the opening quote of the type value (that quote is the
final character of the 8-character pattern, hence index plus 7).  When a
substring is missing the client data is non-conforming:
`UnexpectedClientDataShape`.  The `beforeChallenge` component is returned
by the source but never consumed; its convention is the located index. -/
def findQuoteIndices (input : List Char) :
    Except PasskeyError (Nat × Nat) :=
  match strIndexOf challengePat input, strIndexOf typePat input with
  | some i, some j => .ok (i, j + 7)
  | _, _ => .error .UnexpectedClientDataShape

/-! ## RIP-7212 precompile allow-list (spec sections 4.5, 8) -/

/-- Modelled from the spec: the fixed allow-list of chain ids whose networks
support the P-256 signature verification precompile, from the absent
`./utils` module.  The spec fixes the existence of this list but does not
enumerate its members; a representative non-empty value is used (Polygon
mainnet), and every theorem below depends only on list membership, never on
the particular members. -/
def RIP7212SupportedNetworks : List Nat := [137]

/-- Modelled from the spec: `isRIP7212SupportedNetwork` of the absent
`./utils` module, membership in the fixed allow-list. -/
def isRIP7212SupportedNetwork (chainId : Nat) : Bool :=
  RIP7212SupportedNetworks.contains chainId

/-! ## ABI encoder (viem `encodeAbiParameters`, restricted to the parameter
types this package uses) -/

/-- Flat ABI parameter values occurring in the package's two schemas.  The
static tuple `(uint256 x, uint256 y)` of the init schema encodes inline as
its two components under the Solidity ABI, so the schemas flatten to lists
of these parameters. -/
inductive AbiParam
  | uint (n : Nat)
  | boolean (b : Bool)
  | fixedBytes (bs : List Nat)
  | dynBytes (bs : List Nat)
  | dynString (s : String)
  deriving DecidableEq, Repr

/-- Dynamic parameters are head-referenced by offset. -/
def AbiParam.isDyn : AbiParam → Bool
  | .dynBytes _ => true
  | .dynString _ => true
  | _ => false

@[simp] theorem AbiParam.isDyn_uint (n : Nat) :
    (AbiParam.uint n).isDyn = false := rfl

@[simp] theorem AbiParam.isDyn_boolean (b : Bool) :
    (AbiParam.boolean b).isDyn = false := rfl

@[simp] theorem AbiParam.isDyn_fixedBytes (bs : List Nat) :
    (AbiParam.fixedBytes bs).isDyn = false := rfl

@[simp] theorem AbiParam.isDyn_dynBytes (bs : List Nat) :
    (AbiParam.dynBytes bs).isDyn = true := rfl

@[simp] theorem AbiParam.isDyn_dynString (s : String) :
    (AbiParam.dynString s).isDyn = true := rfl

/-- UTF-8 bytes of a string; the strings this package encodes are the
latin-1 output of `atob`, embedded here as their code points (which agree
with UTF-8 on the ASCII range used by client data JSON). -/
def stringBytes (s : String) : List Nat := s.data.map Char.toNat

/-- Byte payload of a dynamic parameter before 32-byte padding. -/
def AbiParam.rawTail : AbiParam → List Nat
  | .dynBytes bs => bs
  | .dynString s => stringBytes s
  | _ => []

/-- Zero padding of a list up to the next multiple of 32 bytes. -/
def padRight32 (bs : List Nat) : List Nat :=
  bs ++ List.replicate ((32 - bs.length % 32) % 32) 0

/-- Head word of a static parameter. -/
def AbiParam.staticWord : AbiParam → List Nat
  | .uint n => natToBEBytes 32 n
  | .boolean b => natToBEBytes 32 (if b then 1 else 0)
  | .fixedBytes bs => bs.take 32 ++ List.replicate (32 - bs.length) 0
  | _ => []

/-- Tail bytes of a parameter: dynamic parameters contribute their length
word followed by their right-padded payload, static parameters nothing. -/
def AbiParam.tailBytes (p : AbiParam) : List Nat :=
  if p.isDyn then natToBEBytes 32 p.rawTail.length ++ padRight32 p.rawTail
  else []

/-- Head section of the encoding: one 32-byte word per parameter, a value
word for static parameters and an offset word (from the start of the head
section) for dynamic ones.  `tailLen` accumulates the bytes of tails
already emitted. -/
def encHeads (headSize : Nat) : Nat → List AbiParam → List Nat
  | _, [] => []
  | tailLen, p :: ps =>
    (if p.isDyn then natToBEBytes 32 (headSize + tailLen) else p.staticWord)
      ++ encHeads headSize (tailLen + p.tailBytes.length) ps

/-- Tail section of the encoding, in parameter order. -/
def encTails (ps : List AbiParam) : List Nat := ps.flatMap AbiParam.tailBytes

/-- Range validity enforced by viem: uint256 values below `2 ^ 256` and
fixed bytes32 values of at most 32 bytes (viem throws otherwise). -/
def AbiParam.ok : AbiParam → Bool
  | .uint n => n < 2 ^ 256
  | .fixedBytes bs => bs.length ≤ 32
  | _ => true

/-- viem `encodeAbiParameters` for a flat parameter list: head section then
tail section; out-of-range values raise (embedded as `PlatformError`). -/
def encodeAbiParameters (ps : List AbiParam) :
    Except PasskeyError (List Nat) :=
  if ps.all AbiParam.ok then
    .ok (encHeads (32 * ps.length) 0 ps ++ encTails ps)
  else .error .PlatformError

/-! ## WebAuthnKey and public-key derivation (`src/toWebAuthnKey.ts`) -/

/-- The credential tuple of `src/toWebAuthnKey.ts` (spec section 3):
`authenticatorIdHash` is a 32-byte digest, embedded as a byte list. -/
structure WebAuthnKey where
  pubX : Nat
  pubY : Nat
  authenticatorId : String
  authenticatorIdHash : List Nat
  deriving DecidableEq, Repr

/-- SubjectPublicKeyInfo header of an uncompressed P-256 public key:
the 26-byte DER prefix (SEQUENCE, AlgorithmIdentifier for id-ecPublicKey
with the prime256v1 curve OID, BIT STRING header) that precedes the
65-byte uncompressed point. -/
def spkiP256Prefix : List Nat :=
  [48, 89, 48, 19, 6, 7, 42, 134, 72, 206, 61, 2, 1,
   6, 8, 42, 134, 72, 206, 61, 3, 1, 7, 3, 66, 0]

/-- Modelled from the spec (section 4.3): the WebCrypto
`importKey("spki", ...)` / `exportKey("raw", ...)` pair used by
`src/toWebAuthnKey.ts:203-215`.  A well-formed P-256 SPKI encoding is the
fixed 26-byte prefix followed by the 65-byte uncompressed point
`0x04 || X || Y`; the raw export returns that point.  Unsupported curve or
malformed DER fails with `InvalidPublicKeyEncoding`. -/
def importExportRawKey (spkiDer : List Nat) :
    Except PasskeyError (List Nat) :=
  if spkiDer.length = 91 ∧ spkiDer.take 26 = spkiP256Prefix ∧
      spkiDer.get? 26 = some 4 ∧ spkiDer.all (· < 256) then
    .ok (spkiDer.drop 26)
  else .error .InvalidPublicKeyEncoding

/-- Public-key derivation of `src/toWebAuthnKey.ts:202-224`: base64-decode
the SPKI blob (`Buffer.from(pubKey, "base64")`), import and re-export it in
raw uncompressed form, then take bytes 1..33 as X and bytes 33..65 as Y
(the source reads them through hex strings and `BigInt`; embedded directly
as big-endian byte values).  Returns the coordinate pair together with the
raw point it was split from. -/
def derivePubKeyCoords (pubKeyB64 : String) :
    Except PasskeyError (Nat × Nat × List Nat) :=
  match b64decode pubKeyB64 with
  | none => .error .InvalidPublicKeyEncoding
  | some spkiDer =>
    match importExportRawKey spkiDer with
    | .error e => .error e
    | .ok rawKey =>
      let pubKeyX := beBytesToNat ((rawKey.drop 1).take 32)
      let pubKeyY := beBytesToNat (rawKey.drop 33)
      .ok (pubKeyX, pubKeyY, rawKey)

/-- Result of the platform registration ceremony (`startRegistration`):
the credential id and the optional SPKI public key of its response.
JavaScript treats an absent value and an empty string alike as falsy,
hence the explicit `Option String`. -/
structure RegisterCred where
  id : String
  publicKey : Option String
  deriving DecidableEq, Repr

/-- JavaScript falsiness of an optional string (`!x`). -/
def jsFalsyStr : Option String → Bool
  | none => true
  | some s => s = ""

/-- Registration flow of `toWebAuthnKey` (`src/toWebAuthnKey.ts:143-227`),
with the external collaborators explicit: `keccak256` (a viem primitive) is
a parameter, the ceremony result and the server verdict are inputs, and
the performed effects are returned as a trace.  Mirrors the source order:
options fetch, ceremony, verify fetch, `verified` check, public-key and
authenticator-id presence checks, authenticator-id hash, SPKI import,
coordinate split. -/
def toWebAuthnKeyRegister (keccak256 : List Nat → List Nat)
    (cred : RegisterCred) (verified : Bool) :
    List Effect × Except PasskeyError WebAuthnKey :=
  let effects := [Effect.fetchRegisterOptions, Effect.startRegistration,
    Effect.fetchRegisterVerify]
  if ¬ verified then (effects, .error .RegistrationNotVerified)
  else
    let authenticatorId := cred.id
    let pubKey := cred.publicKey
    if jsFalsyStr pubKey then (effects, .error .MissingPublicKey)
    else if authenticatorId = "" then
      (effects, .error .MissingAuthenticatorId)
    else
      match b64ToBytes authenticatorId with
      | .error e => (effects, .error e)
      | .ok idBytes =>
        let authenticatorIdHash := keccak256 idBytes
        match derivePubKeyCoords (pubKey.getD "") with
        | .error e => (effects ++ [Effect.importKey], .error e)
        | .ok (pubKeyX, pubKeyY, _) =>
          (effects ++ [Effect.importKey],
           .ok { pubX := pubKeyX, pubY := pubKeyY,
                 authenticatorId := authenticatorId,
                 authenticatorIdHash := authenticatorIdHash })

/-- viem `toHex(value, size 32)`: 32-byte big-endian hex rendering of a
uint256, raising when the value does not fit. -/
def toHexSize32 (n : Nat) : Except PasskeyError (List Nat) :=
  if n < 2 ^ 256 then .ok (natToBEBytes 32 n) else .error .PlatformError

/-- viem `pad(hex, size 32)`: left zero padding to 32 bytes, raising when
the input is longer. -/
def padLeft32 (bs : List Nat) : Except PasskeyError (List Nat) :=
  if bs.length ≤ 32 then .ok (List.replicate (32 - bs.length) 0 ++ bs)
  else .error .PlatformError

/-- `encodeWebAuthnPubKey` of `src/toWebAuthnKey.ts:48-54`: concatenation
of the 32-byte X coordinate, the 32-byte Y coordinate and the padded
authenticator id hash (viem `concatHex` over `toHex` and `pad`). -/
def encodeWebAuthnPubKey (pubKey : WebAuthnKey) :
    Except PasskeyError (List Nat) :=
  match toHexSize32 pubKey.pubX, toHexSize32 pubKey.pubY,
      padLeft32 pubKey.authenticatorIdHash with
  | .ok x, .ok y, .ok h => .ok (x ++ y ++ h)
  | .error e, _, _ => .error e
  | _, .error e, _ => .error e
  | _, _, .error e => .error e

/-! ## Message signing and the validator module (`src/toPasskeyValidator.ts`) -/

/-- Shapes of the `SignableMessage` input distinguished at runtime by
`src/toPasskeyValidator.ts:35-47`: a plain string, an object whose `raw`
field is a hex string, an object whose `raw` field is a `Uint8Array`, and
a summary constructor `other` for every remaining runtime shape (the
`else` branch of the source). -/
inductive SignableMessageShape
  | str (s : String)
  | rawHex (h : String)
  | rawBytes (b : List Nat)
  | other
  deriving DecidableEq, Repr

/-- JavaScript `Uint8Array.prototype.toString`: comma-joined decimal. -/
def uint8ArrayJSToString (bs : List Nat) : String :=
  String.intercalate "," (bs.map (fun b => toString b))

/-- Message-content extraction of `src/toPasskeyValidator.ts:35-47`. -/
def messageContent : SignableMessageShape → Except PasskeyError String
  | .str s => .ok s
  | .rawHex h => .ok h
  | .rawBytes b => .ok (uint8ArrayJSToString b)
  | .other => .error .UnsupportedMessageFormat

/-- Result of the platform authentication ceremony (`startAuthentication`),
base64-encoded as delivered by the browser. -/
structure AuthenticationResponse where
  authenticatorData : String
  clientDataJSON : String
  signature : String
  deriving DecidableEq, Repr

/-- `signMessageUsingWebAuthn` of `src/toPasskeyValidator.ts:30-107`: the
ceremony response is a parameter and the effect trace is returned.  The
pipeline mirrors the source: message-shape trichotomy, 0x stripping,
challenge construction, ceremony, authenticator-data hex, `atob` of the
client data, locator, DER parse and normalization, six-field ABI encoding.
A negative or oversized normalized `s` would make `BigInt`-to-uint256
encoding raise in viem; the embedded encoder checks the same ranges. -/
def signMessageUsingWebAuthn (message : SignableMessageShape)
    (chainId : Nat) (allowCredentials : List String)
    (cred : AuthenticationResponse) :
    List Effect × Except PasskeyError (List Nat) :=
  match messageContent message with
  | .error e => ([], .error e)
  | .ok content =>
    let formattedMessage := String.mk (strip0x content.data)
    let _challenge :=
      base64FromUint8Array (hexStringToUint8Array formattedMessage) true
    let _allow := allowCredentials
    ([Effect.startAuthenticationEffect],
     match b64ToBytes cred.authenticatorData with
     | .error e => .error e
     | .ok authDataBytes =>
       let _authenticatorDataHex := uint8ArrayToHexString authDataBytes
       match atobStr cred.clientDataJSON with
       | .error e => .error e
       | .ok clientDataJSON =>
         match findQuoteIndices clientDataJSON.data with
         | .error e => .error e
         | .ok qi =>
           let beforeType := qi.2
           match b64ToBytes cred.signature with
           | .error e => .error e
           | .ok sigBytes =>
             match parseAndNormalizeSig (uint8ArrayToHexString sigBytes) with
             | .error e => .error e
             | .ok (r, s) =>
               if 0 ≤ s then
                 encodeAbiParameters
                   [AbiParam.dynBytes authDataBytes,
                    AbiParam.dynString clientDataJSON,
                    AbiParam.uint beforeType,
                    AbiParam.uint r,
                    AbiParam.uint s.toNat,
                    AbiParam.boolean (isRIP7212SupportedNetwork chainId)]
               else .error .PlatformError)

/-- `signUserOpHash` callback of `src/toPasskeyValidator.ts:182-191`: the
closure's read of `account.client?.chain` is explicit as an optional chain
id.  When no chain is set the callback throws before doing anything else:
the trace is empty and the result is `ChainIdUnavailable`. -/
def signUserOpHash (clientChain : Option Nat) (webAuthnKey : WebAuthnKey)
    (userOpHash : String) (cred : AuthenticationResponse) :
    List Effect × Except PasskeyError (List Nat) :=
  match clientChain with
  | none => ([], .error .ChainIdUnavailable)
  | some chainId =>
    signMessageUsingWebAuthn (.str userOpHash) chainId
      [webAuthnKey.authenticatorId] cred

/-- Modelled from the spec: `PASSKEY_VALIDATOR_ADDRESS` of the absent
`./constants` module; its value is irrelevant to every claim. -/
def PASSKEY_VALIDATOR_ADDRESS : Nat := 0

/-- Nested module-install descriptor of the module returned by
`toPasskeyValidator`. -/
structure ModuleInitDataDescriptor where
  initData : List Nat
  address : Nat
  deriving DecidableEq, Repr

/-- The fields of the module value built by
`src/toPasskeyValidator.ts:174-264` that carry data (the signing callback
is `signUserOpHash` above, with its captured state explicit). -/
structure PasskeyModule where
  address : Nat
  initData : List Nat
  moduleInitData : ModuleInitDataDescriptor
  deInitData : List Nat
  deriving DecidableEq, Repr

/-- `toPasskeyValidator` of `src/toPasskeyValidator.ts:174-264`, restricted
to the data fields.  The init payload
`abi.encode((uint256 x, uint256 y), bytes32 authenticatorIdHash)` is
written out twice, mirroring the two literal `encodeAbiParameters` call
sites of the source (lines 192-214 and 216-238); the static tuple encodes
inline as its two uint256 components. -/
def toPasskeyValidator (webAuthnKey : WebAuthnKey) :
    Except PasskeyError PasskeyModule :=
  match encodeAbiParameters
      [AbiParam.uint webAuthnKey.pubX,
       AbiParam.uint webAuthnKey.pubY,
       AbiParam.fixedBytes webAuthnKey.authenticatorIdHash],
    encodeAbiParameters
      [AbiParam.uint webAuthnKey.pubX,
       AbiParam.uint webAuthnKey.pubY,
       AbiParam.fixedBytes webAuthnKey.authenticatorIdHash] with
  | .ok initData, .ok nestedInitData =>
    .ok { address := PASSKEY_VALIDATOR_ADDRESS,
          initData := initData,
          moduleInitData :=
            { initData := nestedInitData,
              address := PASSKEY_VALIDATOR_ADDRESS },
          deInitData := [] }
  | .error e, _ => .error e
  | _, .error e => .error e

/-- Specification-side definition for the refinement claim about the init
payload (spec sections 3 and 6, quoted words): the ABI encoding
`abi.encode((uint256 x, uint256 y), bytes32 authenticatorIdHash)` laid out
as the 32-byte big-endian x word, the 32-byte big-endian y word, and the
32-byte hash. -/
def specInitPayload (x y : Nat) (authenticatorIdHash : List Nat) :
    List Nat :=
  natToBEBytes 32 x ++ natToBEBytes 32 y ++ authenticatorIdHash

/-! ## Concrete inputs used by the evaluation witnesses -/

/-- Standard base64 encoding of a well-formed P-256 SPKI blob: the 26-byte
prefix, then `0x04`, then an X coordinate of 32 `0x01` bytes and a Y
coordinate of 32 `0x02` bytes. -/
def sampleSpkiBase64 : String :=
  "MFkwEwYHKoZIzj0CAQYIKoZIzj0DAQcDQgAEAQEBAQEBAQEBAQEBAQEBAQEBAQEBAQEBAQEBAQEBAQECAgICAgICAgICAgICAgICAgICAgICAgICAgICAgICAg"

/-- X coordinate of `sampleSpkiBase64` (32 bytes of `0x01`). -/
def samplePubX : Nat :=
  454086624460063511464984254936031011189294057512315937409637584344757371137

/-- Y coordinate of `sampleSpkiBase64` (32 bytes of `0x02`). -/
def samplePubY : Nat :=
  908173248920127022929968509872062022378588115024631874819275168689514742274

/-- A concrete credential tuple used to evaluate the theorems. -/
def sampleKey : WebAuthnKey :=
  { pubX := samplePubX, pubY := samplePubY,
    authenticatorId := "AQIDBA",
    authenticatorIdHash := List.replicate 32 7 }

/-- A concrete ceremony response whose fields decode and parse: the
authenticator data is the bytes 1,2,3, the client data is a conforming
JSON text, and the signature is the DER sequence of two one-byte
integers 1 and 1. -/
def sampleAuthResponse : AuthenticationResponse :=
  { authenticatorData := "AQID",
    clientDataJSON := base64FromUint8Array
      (stringBytes "\x7b\"type\":\"webauthn.get\",\"challenge\":\"abc\"\x7d")
      false,
    signature := base64FromUint8Array [48, 6, 2, 1, 1, 2, 1, 1] false }

/-! ## General lemmas -/

instance {ε α : Type} [DecidableEq ε] [DecidableEq α] :
    DecidableEq (Except ε α) := fun x y =>
  match x, y with
  | .ok a, .ok b =>
    if h : a = b then .isTrue (by rw [h])
    else .isFalse (by intro c; injection c; exact h ‹_›)
  | .error a, .error b =>
    if h : a = b then .isTrue (by rw [h])
    else .isFalse (by intro c; injection c; exact h ‹_›)
  | .ok _, .error _ => .isFalse (by intro c; exact Except.noConfusion c)
  | .error _, .ok _ => .isFalse (by intro c; exact Except.noConfusion c)

theorem beBytesToNat_natToBEBytes (n v : Nat) (h : v < 256 ^ n) :
    beBytesToNat (natToBEBytes n v) = v := by
  induction n generalizing v with
  | zero =>
    interval_cases v
    rfl
  | succ n ih =>
    have hdiv : v / 256 < 256 ^ n := by
      rw [Nat.div_lt_iff_lt_mul (by norm_num)]
      calc v < 256 ^ (n + 1) := h
        _ = 256 ^ n * 256 := by rw [pow_succ]
    simp only [natToBEBytes, beBytesToNat_append_singleton, ih _ hdiv]
    omega

theorem drop_length_append {α : Type} (w rest : List α) (n : Nat) :
    (w ++ rest).drop (w.length + n) = rest.drop n := by
  induction w generalizing n with
  | nil => simp
  | cons a as ih =>
    simp only [List.cons_append, List.length_cons]
    rw [show as.length + 1 + n = (as.length + n) + 1 by omega,
      List.drop_succ_cons]
    exact ih n

theorem drop_32_append {α : Type} (w rest : List α) (hw : w.length = 32)
    (n : Nat) : (w ++ rest).drop (32 + n) = rest.drop n := by
  rw [show (32 + n) = w.length + n by rw [hw]]
  exact drop_length_append w rest n

theorem take_32_append {α : Type} (w rest : List α) (hw : w.length = 32) :
    (w ++ rest).take 32 = w := by
  rw [← hw, List.take_left]

theorem isPrefixOf_append_self (pat v : List Char) :
    pat.isPrefixOf (pat ++ v) = true := by
  induction pat with
  | nil => simp [List.isPrefixOf]
  | cons a as ih => simp [List.isPrefixOf, ih]

theorem strIndexOf_isSome_of_isPrefixOf (pat l : List Char)
    (h : pat.isPrefixOf l = true) : (strIndexOf pat l).isSome := by
  cases l with
  | nil =>
    cases pat with
    | nil => simp [strIndexOf]
    | cons a as => simp [List.isPrefixOf] at h
  | cons c cs => simp [strIndexOf, h]

theorem strIndexOf_isSome_append (pat pre suf : List Char)
    (h : pat.isPrefixOf suf = true) :
    (strIndexOf pat (pre ++ suf)).isSome := by
  induction pre with
  | nil => simpa using strIndexOf_isSome_of_isPrefixOf pat suf h
  | cons c cs ih =>
    simp only [List.cons_append, strIndexOf]
    split
    · simp
    · simpa using ih

theorem strIndexOf_append_self (pat v : List Char) (hp : pat ≠ []) :
    strIndexOf pat (pat ++ v) = some 0 := by
  cases pat with
  | nil => exact absurd rfl hp
  | cons a as =>
    simp [strIndexOf, isPrefixOf_append_self]

/-! ## Claim C1: DER parsing and low-s normalization -/

/-- C1: every signature accepted by `parseAndNormalizeSig` decodes as hex
to a DER pair `(r, s)`; the returned second component is `s` itself when
`s ≤ p256Order / 2` and `p256Order - s` when `s > p256Order / 2`, and in
either case it is at most `p256Order / 2`. -/
theorem parseAndNormalizeSig_lowS (sigHex : String) (r : Nat) (s' : Int)
    (h : parseAndNormalizeSig sigHex = .ok (r, s')) :
    ∃ bytes s,
      hexPairsToBytes (strip0x sigHex.data) = some bytes ∧
      parseDERSignature bytes = some (r, s) ∧
      (s ≤ p256Order / 2 → s' = (s : Int)) ∧
      (p256Order / 2 < s → s' = (p256Order : Int) - (s : Int)) ∧
      s' ≤ ((p256Order / 2 : Nat) : Int) := by
  unfold parseAndNormalizeSig at h
  split at h
  · exact absurd h (by simp)
  · rename_i bytes e1
    split at h
    · exact absurd h (by simp)
    · rename_i r0 s0 e2
      simp only [Except.ok.injEq, Prod.mk.injEq] at h
      obtain ⟨hr, hs⟩ := h
      subst hr
      refine ⟨bytes, s0, e1, e2, ?_, ?_, ?_⟩
      · intro hle
        rw [← hs]
        unfold normalizeS
        rw [if_neg (by omega)]
      · intro hlt
        rw [← hs]
        unfold normalizeS
        rw [if_pos hlt]
      · rw [← hs]
        unfold normalizeS
        have hn : p256Order =
            115792089210356248762697446949407573529996955224135760342422259061068512044369 := by
          norm_num [p256Order]
        split
        · rw [hn] at *
          omega
        · omega

/-- Evaluation witness for C1: the DER signature `30 06 02 01 01 02 01 01`
(`r = 1`, `s = 1`). -/
theorem parseAndNormalizeSig_lowS_witness :
    ∃ bytes s,
      hexPairsToBytes (strip0x "0x3006020101020101".data) = some bytes ∧
      parseDERSignature bytes = some (1, s) ∧
      (s ≤ p256Order / 2 → (1 : Int) = (s : Int)) ∧
      (p256Order / 2 < s → (1 : Int) = (p256Order : Int) - (s : Int)) ∧
      (1 : Int) ≤ ((p256Order / 2 : Nat) : Int) :=
  parseAndNormalizeSig_lowS "0x3006020101020101" 1 1 (by decide)

/-! ## Claim C2: authenticator id hash invariant -/

/-- C2: every `WebAuthnKey` produced by the registration flow carries, as
`authenticatorIdHash`, the keccak-256 digest of the bytes obtained by
base64url-decoding its `authenticatorId`; in particular an id of
`"AQIDBA"` is hashed as the bytes `0x01 0x02 0x03 0x04`.  The digest
function itself is the external viem primitive, quantified over. -/
theorem toWebAuthnKey_authenticatorIdHash
    (keccak256 : List Nat → List Nat) (cred : RegisterCred)
    (verified : Bool) (effects : List Effect) (key : WebAuthnKey)
    (h : toWebAuthnKeyRegister keccak256 cred verified =
      (effects, .ok key)) :
    (∃ bs, b64decode key.authenticatorId = some bs ∧
      key.authenticatorIdHash = keccak256 bs) ∧
    (key.authenticatorId = "AQIDBA" →
      key.authenticatorIdHash = keccak256 [1, 2, 3, 4]) := by
  simp only [toWebAuthnKeyRegister] at h
  split at h
  · simp at h
  · split at h
    · simp at h
    · split at h
      · simp at h
      · split at h
        · simp at h
        · rename_i idBytes hbytes
          split at h
          · simp at h
          ·
            simp only [Prod.mk.injEq, Except.ok.injEq] at h
            obtain ⟨-, hkey⟩ := h
            subst hkey
            have hdec : b64decode cred.id = some idBytes := by
              unfold b64ToBytes at hbytes
              cases hd : b64decode cred.id <;> rw [hd] at hbytes <;>
                simp_all
            refine ⟨⟨idBytes, hdec, rfl⟩, ?_⟩
            intro hid
            have hid2 : cred.id = "AQIDBA" := hid
            rw [hid2] at hdec
            have h1234 : b64decode "AQIDBA" = some [1, 2, 3, 4] := by
              decide
            rw [h1234] at hdec
            have hI : idBytes = [1, 2, 3, 4] := by
              injection hdec.symm
            show keccak256 idBytes = keccak256 [1, 2, 3, 4]
            rw [hI]

/-- Evaluation witness for C2: a complete successful registration run with
the identity-shaped digest stub `fun _ => List.replicate 32 7`, the sample
SPKI key and the authenticator id `"AQIDBA"`. -/
theorem toWebAuthnKey_authenticatorIdHash_witness :
    (∃ bs, b64decode sampleKey.authenticatorId = some bs ∧
      sampleKey.authenticatorIdHash = (fun _ => List.replicate 32 7) bs) ∧
    (sampleKey.authenticatorId = "AQIDBA" →
      sampleKey.authenticatorIdHash =
        (fun _ => List.replicate 32 7) [1, 2, 3, 4]) :=
  toWebAuthnKey_authenticatorIdHash (fun _ => List.replicate 32 7)
    ⟨"AQIDBA", some sampleSpkiBase64⟩ true
    [Effect.fetchRegisterOptions, Effect.startRegistration,
     Effect.fetchRegisterVerify, Effect.importKey]
    sampleKey (by decide)

/-! ## Claim C3: ClientData locator -/

/-- The canonical leading text of a conforming client data JSON:
an opening brace, the type field with value `webauthn.get`, then the
challenge key and its opening quote. -/
def clientDataHeader : List Char :=
  "\x7b\"type\":\"webauthn.get\",\"challenge\":\"".data

/-- C3: on every client data string of the form
`{"type":"webauthn.get","challenge":"...}` the locator succeeds with
`beforeType = 8`: the opening quote of the type value sits at index 8
(the first nine characters are `{"type":"`), so exactly 8 characters
precede it.  On any input missing the `"challenge"` or `"type":"`
substring the locator fails with `UnexpectedClientDataShape`. -/
theorem findQuoteIndices_locates_type (rest : List Char)
    (input : List Char)
    (hmiss : strIndexOf challengePat input = none ∨
      strIndexOf typePat input = none) :
    (∃ i, findQuoteIndices (clientDataHeader ++ rest) = .ok (i, 8)) ∧
    (clientDataHeader ++ rest).take 9 = "\x7b\"type\":\"".data ∧
    findQuoteIndices input = .error .UnexpectedClientDataShape := by
  have hdecomp : clientDataHeader ++ rest =
      Char.ofNat 123 :: (typePat ++ ("webauthn.get\",\"challenge\":\"".data ++ rest)) := by
    have : clientDataHeader =
        Char.ofNat 123 :: (typePat ++ "webauthn.get\",\"challenge\":\"".data) := by
      decide
    rw [this]
    simp
  have htype : strIndexOf typePat (clientDataHeader ++ rest) = some 1 := by
    rw [hdecomp]
    rw [strIndexOf]
    rw [if_neg ?_]
    · rw [strIndexOf_append_self typePat _ (by decide)]
      rfl
    · have : typePat = Char.ofNat 34 :: "type\":\"".data := by decide
      rw [this]
      simp [List.isPrefixOf]
  have hchal : (strIndexOf challengePat (clientDataHeader ++ rest)).isSome := by
    have hdecomp2 : clientDataHeader ++ rest =
        "\x7b\"type\":\"webauthn.get\",".data ++
          (challengePat ++ (":\"".data ++ rest)) := by
      have : clientDataHeader =
          "\x7b\"type\":\"webauthn.get\",".data ++
            (challengePat ++ ":\"".data) := by decide
      rw [this]
      simp
    rw [hdecomp2]
    refine strIndexOf_isSome_append _ _ _ ?_
    exact isPrefixOf_append_self challengePat _
  refine ⟨?_, ?_, ?_⟩
  · obtain ⟨i, hi⟩ := Option.isSome_iff_exists.mp hchal
    refine ⟨i, ?_⟩
    unfold findQuoteIndices
    rw [hi, htype]
  · have h9 : clientDataHeader.take 9 = "\x7b\"type\":\"".data := by decide
    calc (clientDataHeader ++ rest).take 9
        = clientDataHeader.take 9 := by
          rw [List.take_append_of_le_length (by decide)]
      _ = "\x7b\"type\":\"".data := h9
  · unfold findQuoteIndices
    rcases hmiss with hm | hm
    · rw [hm]
    · rw [hm]
      split <;> simp_all

/-- Evaluation witness for C3: a concrete conforming client data string
(locator returns 8) and the empty string (locator fails). -/
theorem findQuoteIndices_locates_type_witness :
    (∃ i, findQuoteIndices
      (clientDataHeader ++ "abc\"\x7d".data) = .ok (i, 8)) ∧
    findQuoteIndices [] = .error .UnexpectedClientDataShape :=
  ⟨(findQuoteIndices_locates_type "abc\"\x7d".data [] (Or.inl (by decide))).1,
   (findQuoteIndices_locates_type "abc\"\x7d".data [] (Or.inl (by decide))).2.2⟩

/-! ## Claim C4: public-key derivation -/

theorem get?_drop_zero {α : Type} (l : List α) (n : Nat) :
    (l.drop n).get? 0 = l.get? n := by
  induction n generalizing l with
  | zero => rfl
  | succ n ih =>
    cases l with
    | nil => simp
    | cons a t =>
      rw [List.drop_succ_cons]
      exact ih t

/-- C4: every SPKI input accepted by the deriver yields coordinates that
are read from the raw uncompressed export as bytes 1..33 (X) and 33..65
(Y); the derivation is deterministic, and re-encoding the coordinates as
32-byte big-endian strings behind the `0x04` tag reproduces the raw
65-byte point exactly. -/
theorem derivePubKeyCoords_correct (pubKeyB64 : String) (x y : Nat)
    (raw : List Nat)
    (h : derivePubKeyCoords pubKeyB64 = .ok (x, y, raw)) :
    raw.length = 65 ∧
    x = beBytesToNat ((raw.drop 1).take 32) ∧
    y = beBytesToNat (raw.drop 33) ∧
    raw = 4 :: (natToBEBytes 32 x ++ natToBEBytes 32 y) ∧
    (∀ x2 y2 raw2, derivePubKeyCoords pubKeyB64 = .ok (x2, y2, raw2) →
      x2 = x ∧ y2 = y ∧ raw2 = raw) := by
  have hdet : ∀ x2 y2 raw2,
      derivePubKeyCoords pubKeyB64 = .ok (x2, y2, raw2) →
      x2 = x ∧ y2 = y ∧ raw2 = raw := by
    intro x2 y2 raw2 h2
    have heq := h.symm.trans h2
    simp only [Except.ok.injEq, Prod.mk.injEq] at heq
    exact ⟨heq.1.symm, heq.2.1.symm, heq.2.2.symm⟩
  unfold derivePubKeyCoords at h
  split at h
  · simp at h
  · rename_i spkiDer hdec
    split at h
    · simp at h
    · rename_i rawKey hE
      simp only [Except.ok.injEq, Prod.mk.injEq] at h
      obtain ⟨hx, hy, hr⟩ := h
      subst hr
      unfold importExportRawKey at hE
      split at hE
      · rename_i hcond
        obtain ⟨h91, hpre, h26, hall⟩ := hcond
        simp only [Except.ok.injEq] at hE
        subst hE
        have hall2 : ∀ b ∈ spkiDer, b < 256 := by
          simpa [List.all_eq_true] using hall
        have hlen : (spkiDer.drop 26).length = 65 := by
          simp only [List.length_drop]
          omega
        have hXlen : (((spkiDer.drop 26).drop 1).take 32).length = 32 := by
          simp only [List.length_take, List.length_drop]
          omega
        have hYlen : ((spkiDer.drop 26).drop 33).length = 32 := by
          simp only [List.length_drop]
          omega
        have hXmem : ∀ b ∈ ((spkiDer.drop 26).drop 1).take 32, b < 256 :=
          fun b hb => hall2 b
            (List.drop_subset _ _ (List.drop_subset _ _
              (List.take_subset _ _ hb)))
        have hYmem : ∀ b ∈ (spkiDer.drop 26).drop 33, b < 256 :=
          fun b hb => hall2 b
            (List.drop_subset _ _ (List.drop_subset _ _ hb))
        have hX : natToBEBytes 32 x = ((spkiDer.drop 26).drop 1).take 32 := by
          have hrt := natToBEBytes_beBytesToNat
            (((spkiDer.drop 26).drop 1).take 32) hXmem
          rw [hXlen] at hrt
          rw [← hx]
          exact hrt
        have hY : natToBEBytes 32 y = (spkiDer.drop 26).drop 33 := by
          have hrt := natToBEBytes_beBytesToNat
            ((spkiDer.drop 26).drop 33) hYmem
          rw [hYlen] at hrt
          rw [← hy]
          exact hrt
        refine ⟨hlen, hx.symm, hy.symm, ?_, hdet⟩
        rw [hX, hY]
        have hhead : (spkiDer.drop 26).get? 0 = some 4 := by
          rw [get?_drop_zero]
          exact h26
        obtain ⟨a, t, hdrop⟩ : ∃ a t, spkiDer.drop 26 = a :: t := by
          cases hd : spkiDer.drop 26 with
          | nil => rw [hd] at hhead; simp at hhead
          | cons a t => exact ⟨a, t, rfl⟩
        rw [hdrop] at hhead
        have ha : a = 4 := by simpa using hhead
        subst ha
        rw [hdrop]
        have e1 : ((4 : Nat) :: t).drop 1 = t := rfl
        have e33 : ((4 : Nat) :: t).drop 33 = t.drop 32 := rfl
        rw [e1, e33, List.take_append_drop]
      · simp at hE

/-- Evaluation witness for C4: the sample SPKI key derives to the sample
coordinates and its raw point round-trips. -/
theorem derivePubKeyCoords_correct_witness :
    ((4 : Nat) :: (List.replicate 32 1 ++ List.replicate 32 2)).length = 65 ∧
    samplePubX = beBytesToNat
      ((((4 : Nat) :: (List.replicate 32 1 ++ List.replicate 32 2)).drop 1).take 32) ∧
    samplePubY = beBytesToNat
      (((4 : Nat) :: (List.replicate 32 1 ++ List.replicate 32 2)).drop 33) ∧
    ((4 : Nat) :: (List.replicate 32 1 ++ List.replicate 32 2)) =
      4 :: (natToBEBytes 32 samplePubX ++ natToBEBytes 32 samplePubY) ∧
    (∀ x2 y2 raw2,
      derivePubKeyCoords sampleSpkiBase64 = .ok (x2, y2, raw2) →
      x2 = samplePubX ∧ y2 = samplePubY ∧
        raw2 = (4 : Nat) :: (List.replicate 32 1 ++ List.replicate 32 2)) :=
  derivePubKeyCoords_correct sampleSpkiBase64 samplePubX samplePubY
    ((4 : Nat) :: (List.replicate 32 1 ++ List.replicate 32 2)) (by decide)

/-! ## Claim C5: identical init payloads -/

/-- C5: for every key the module built by `toPasskeyValidator` carries
byte-identical `initData` at the top level and inside the nested
module-install descriptor, and both equal the specification's
`abi.encode((uint256 x, uint256 y), bytes32 authenticatorIdHash)`
layout (`specInitPayload`). -/
theorem toPasskeyValidator_initData_eq (k : WebAuthnKey)
    (m : PasskeyModule) (h32 : k.authenticatorIdHash.length = 32)
    (h : toPasskeyValidator k = .ok m) :
    m.initData = m.moduleInitData.initData ∧
    m.initData = specInitPayload k.pubX k.pubY k.authenticatorIdHash := by
  unfold toPasskeyValidator at h
  split at h
  · rename_i initData nested h1 h2
    simp only [Except.ok.injEq] at h
    subst h
    have hcommon : initData = nested := by
      have := h1.symm.trans h2
      simpa using this
    have hval : initData =
        specInitPayload k.pubX k.pubY k.authenticatorIdHash := by
      unfold encodeAbiParameters at h1
      split at h1
      · simp only [Except.ok.injEq] at h1
        rw [← h1]
        simp only [encHeads, encTails, AbiParam.isDyn, AbiParam.staticWord,
          AbiParam.tailBytes, AbiParam.rawTail, specInitPayload,
          List.flatMap, if_neg, Bool.false_eq_true, not_false_eq_true,
          List.append_nil, h32]
        simp [AbiParam.tailBytes, AbiParam.isDyn, List.append_assoc]
        omega
      · simp at h1
    exact ⟨by simpa using hcommon, hval⟩
  · simp at h
  · simp at h

/-- Evaluation witness for C5: the module built for the sample key. -/
theorem toPasskeyValidator_initData_eq_witness :
    ∃ m, toPasskeyValidator sampleKey = .ok m ∧
      m.initData = m.moduleInitData.initData ∧
      m.initData = specInitPayload sampleKey.pubX sampleKey.pubY
        sampleKey.authenticatorIdHash := by
  obtain ⟨m, e⟩ : ∃ m, toPasskeyValidator sampleKey = .ok m := ⟨_, rfl⟩
  exact ⟨m, e,
    (toPasskeyValidator_initData_eq sampleKey m (by decide) e).1,
    (toPasskeyValidator_initData_eq sampleKey m (by decide) e).2⟩

/-! ## Claim C6: the usePrecompiled flag -/

theorem drop160_take32_six_words (w0 w1 w2 w3 w4 w5 T : List Nat)
    (h0 : w0.length = 32) (h1 : w1.length = 32) (h2 : w2.length = 32)
    (h3 : w3.length = 32) (h4 : w4.length = 32) (h5 : w5.length = 32) :
    (((w0 ++ (w1 ++ (w2 ++ (w3 ++ (w4 ++ w5))))) ++ T).drop 160).take 32
      = w5 := by
  simp only [List.append_assoc]
  rw [show (160 : Nat) = 32 + 128 from rfl, drop_32_append w0 _ h0 128]
  rw [show (128 : Nat) = 32 + 96 from rfl, drop_32_append w1 _ h1 96]
  rw [show (96 : Nat) = 32 + 64 from rfl, drop_32_append w2 _ h2 64]
  rw [show (64 : Nat) = 32 + 32 from rfl, drop_32_append w3 _ h3 32]
  rw [show (32 : Nat) = 32 + 0 from rfl, drop_32_append w4 _ h4 0,
    List.drop_zero]
  exact take_32_append w5 T h5

theorem encHeads_six (H t0 : Nat) (p0 p1 : AbiParam) (b r sN : Nat)
    (flag : Bool) (hd0 : p0.isDyn = true) (hd1 : p1.isDyn = true) :
    encHeads H t0 [p0, p1, AbiParam.uint b, AbiParam.uint r,
        AbiParam.uint sN, AbiParam.boolean flag] =
      natToBEBytes 32 (H + t0) ++
      (natToBEBytes 32 (H + (t0 + p0.tailBytes.length)) ++
      (natToBEBytes 32 b ++ (natToBEBytes 32 r ++ (natToBEBytes 32 sN ++
        natToBEBytes 32 (if flag then 1 else 0))))) := by
  simp [encHeads, hd0, hd1, AbiParam.staticWord]

/-- C6: whenever the signing callback returns an encoded signature, its
sixth head word (bytes 160..192, the `usePrecompiled` boolean) encodes 1
exactly when the chain id belongs to the fixed RIP-7212 allow-list and 0
otherwise, and `isRIP7212SupportedNetwork` holds exactly on members of
that list. -/
theorem signUserOpHash_usePrecompiled (chainId : Nat) (k : WebAuthnKey)
    (userOpHash : String) (cred : AuthenticationResponse)
    (effects : List Effect) (enc : List Nat)
    (h : signUserOpHash (some chainId) k userOpHash cred =
      (effects, .ok enc)) :
    (enc.drop 160).take 32 =
      natToBEBytes 32 (if chainId ∈ RIP7212SupportedNetworks then 1 else 0) ∧
    (isRIP7212SupportedNetwork chainId = true ↔
      chainId ∈ RIP7212SupportedNetworks) := by
  have hmem : isRIP7212SupportedNetwork chainId = true ↔
      chainId ∈ RIP7212SupportedNetworks := by
    simp [isRIP7212SupportedNetwork]
  refine ⟨?_, hmem⟩
  simp only [signUserOpHash, signMessageUsingWebAuthn, messageContent,
    Prod.mk.injEq] at h
  obtain ⟨-, henc⟩ := h
  split at henc
  · simp at henc
  · rename_i authDataBytes hauth
    split at henc
    · simp at henc
    · rename_i clientDataJSON hclient
      split at henc
      · simp at henc
      · rename_i qi hqi
        split at henc
        · simp at henc
        · rename_i sigBytes hsig
          split at henc
          · simp at henc
          · rename_i r s hrs
            split at henc
            · rename_i hpos
              unfold encodeAbiParameters at henc
              split at henc
              · simp only [Except.ok.injEq] at henc
                rw [← henc]
                rw [encHeads_six _ _ (AbiParam.dynBytes authDataBytes)
                    (AbiParam.dynString clientDataJSON) _ _ _ _ rfl rfl,
                  drop160_take32_six_words _ _ _ _ _ _ _
                  (natToBEBytes_length _ _) (natToBEBytes_length _ _)
                  (natToBEBytes_length _ _) (natToBEBytes_length _ _)
                  (natToBEBytes_length _ _) (natToBEBytes_length _ _)]
                by_cases hc : chainId ∈ RIP7212SupportedNetworks
                · rw [if_pos (hmem.mpr hc), if_pos hc]
                · have hf : isRIP7212SupportedNetwork chainId = false := by
                    rcases Bool.eq_false_or_eq_true
                      (isRIP7212SupportedNetwork chainId) with hb | hb
                    · exact absurd (hmem.mp hb) hc
                    · exact hb
                  rw [hf, if_neg (by simp), if_neg hc]
              · simp at henc
            · simp at henc

/-- Evaluation witness for C6: the sample ceremony response signed for
chain 137 (a member of the allow-list) and for chain 1 (not a member). -/
theorem signUserOpHash_usePrecompiled_witness :
    ((∃ enc, signUserOpHash (some 137) sampleKey "0xdeadbeef"
        sampleAuthResponse = ([Effect.startAuthenticationEffect], .ok enc) ∧
      (enc.drop 160).take 32 = natToBEBytes 32 1) ∧
     (∃ enc, signUserOpHash (some 1) sampleKey "0xdeadbeef"
        sampleAuthResponse = ([Effect.startAuthenticationEffect], .ok enc) ∧
      (enc.drop 160).take 32 = natToBEBytes 32 0)) ∧
    (isRIP7212SupportedNetwork 137 = true ∧
     isRIP7212SupportedNetwork 1 = false) := by
  obtain ⟨enc137, e137⟩ : ∃ enc,
      (signUserOpHash (some 137) sampleKey "0xdeadbeef"
        sampleAuthResponse).2 = .ok enc := ⟨_, rfl⟩
  obtain ⟨enc1, e1⟩ : ∃ enc,
      (signUserOpHash (some 1) sampleKey "0xdeadbeef"
        sampleAuthResponse).2 = .ok enc := ⟨_, rfl⟩
  have hpair137 : signUserOpHash (some 137) sampleKey "0xdeadbeef"
      sampleAuthResponse = ([Effect.startAuthenticationEffect], .ok enc137) :=
    Prod.ext rfl e137
  have hpair1 : signUserOpHash (some 1) sampleKey "0xdeadbeef"
      sampleAuthResponse = ([Effect.startAuthenticationEffect], .ok enc1) :=
    Prod.ext rfl e1
  have h137 := signUserOpHash_usePrecompiled 137 sampleKey "0xdeadbeef"
    sampleAuthResponse [Effect.startAuthenticationEffect] enc137 hpair137
  have h1 := signUserOpHash_usePrecompiled 1 sampleKey "0xdeadbeef"
    sampleAuthResponse [Effect.startAuthenticationEffect] enc1 hpair1
  refine ⟨⟨⟨enc137, hpair137, ?_⟩, ⟨enc1, hpair1, ?_⟩⟩, by decide, by decide⟩
  · rw [h137.1]
    decide
  · rw [h1.1]
    decide

/-! ## Claim C7: missing chain id -/

/-- C7: when the account client has no chain set, the signing callback
fails with `ChainIdUnavailable` and its effect trace is the empty list:
no authentication ceremony (`startAuthenticationEffect`) and no other
observable effect precedes the failure. -/
theorem signUserOpHash_noChain (k : WebAuthnKey) (userOpHash : String)
    (cred : AuthenticationResponse) :
    signUserOpHash none k userOpHash cred =
      ([], .error .ChainIdUnavailable) ∧
    (signUserOpHash none k userOpHash cred).1 = [] :=
  ⟨rfl, rfl⟩

/-! ## Claim C8: unverified registration -/

/-- C8: when the passkey server reports `verified = false`, the
registration flow fails with `RegistrationNotVerified`.  The trace is
exactly the options fetch, the ceremony and the verify fetch already
performed — it contains no `importKey` effect, so no public-key
derivation is attempted — and the result is the error, so no partial
`WebAuthnKey` is produced.  Both facts are read off the equality, and the
trace is additionally filtered for `importKey` to make the absence an
explicit equation. -/
theorem toWebAuthnKeyRegister_notVerified
    (keccak256 : List Nat → List Nat) (cred : RegisterCred) :
    toWebAuthnKeyRegister keccak256 cred false =
      ([Effect.fetchRegisterOptions, Effect.startRegistration,
        Effect.fetchRegisterVerify], .error .RegistrationNotVerified) ∧
    (toWebAuthnKeyRegister keccak256 cred false).1.filter
      (fun e => e == Effect.importKey) = [] :=
  ⟨rfl, rfl⟩

/-! ## Claim C9: message-shape trichotomy -/

/-- C9: the signing input is accepted in exactly the three runtime shapes
the source distinguishes — a plain string, an object with a hex-string
`raw` field, an object with a byte-array `raw` field — and every other
shape fails at once with `UnsupportedMessageFormat`, with the empty
effect trace (in particular no authentication ceremony is invoked). -/
theorem messageContent_trichotomy (s hexStr : String) (b : List Nat)
    (chainId : Nat) (creds : List String) (cred : AuthenticationResponse) :
    messageContent (.str s) = .ok s ∧
    messageContent (.rawHex hexStr) = .ok hexStr ∧
    messageContent (.rawBytes b) = .ok (uint8ArrayJSToString b) ∧
    signMessageUsingWebAuthn .other chainId creds cred =
      ([], .error .UnsupportedMessageFormat) ∧
    (signMessageUsingWebAuthn .other chainId creds cred).1 = [] :=
  ⟨rfl, rfl, rfl, rfl, rfl⟩

/-! ## Claim C10: public-key hex encoding -/

/-- C10: `encodeWebAuthnPubKey` returns the 96-byte concatenation of the
32-byte big-endian X coordinate, the 32-byte big-endian Y coordinate, and
the authenticator id hash left-padded to 32 bytes; the first two 32-byte
words decode back to the coordinates. -/
theorem encodeWebAuthnPubKey_layout (k : WebAuthnKey) (enc : List Nat)
    (h : encodeWebAuthnPubKey k = .ok enc) :
    enc = natToBEBytes 32 k.pubX ++ natToBEBytes 32 k.pubY ++
      (List.replicate (32 - k.authenticatorIdHash.length) 0 ++
        k.authenticatorIdHash) ∧
    enc.length = 96 ∧
    beBytesToNat (enc.take 32) = k.pubX ∧
    beBytesToNat ((enc.drop 32).take 32) = k.pubY := by
  unfold encodeWebAuthnPubKey at h
  split at h
  · rename_i x y hh hx hy hpad
    simp only [Except.ok.injEq] at h
    subst h
    unfold toHexSize32 at hx hy
    unfold padLeft32 at hpad
    split at hx
    · split at hy
      · split at hpad
        · rename_i hxlt hylt hhlen
          simp only [Except.ok.injEq] at hx hy hpad
          subst hx
          subst hy
          subst hpad
          have h256 : (256 : Nat) ^ 32 = 2 ^ 256 := by decide
          refine ⟨rfl, ?_, ?_, ?_⟩
          · simp only [List.length_append, natToBEBytes_length,
              List.length_replicate]
            omega
          · rw [List.append_assoc,
              take_32_append _ _ (natToBEBytes_length _ _)]
            exact beBytesToNat_natToBEBytes 32 k.pubX (h256 ▸ hxlt)
          · rw [List.append_assoc,
              show (32 : Nat) = 32 + 0 from rfl,
              drop_32_append _ _ (natToBEBytes_length _ _) 0,
              List.drop_zero,
              take_32_append _ _ (natToBEBytes_length _ _)]
            exact beBytesToNat_natToBEBytes 32 k.pubY (h256 ▸ hylt)
        · simp at hpad
      · simp at hy
    · simp at hx
  · simp at h
  · simp at h
  · simp at h

/-- Evaluation witness for C10: the sample key. -/
theorem encodeWebAuthnPubKey_layout_witness :
    ∃ enc, encodeWebAuthnPubKey sampleKey = .ok enc ∧
      enc = natToBEBytes 32 sampleKey.pubX ++ natToBEBytes 32 sampleKey.pubY ++
        (List.replicate (32 - sampleKey.authenticatorIdHash.length) 0 ++
          sampleKey.authenticatorIdHash) ∧
      enc.length = 96 ∧
      beBytesToNat (enc.take 32) = sampleKey.pubX ∧
      beBytesToNat ((enc.drop 32).take 32) = sampleKey.pubY := by
  obtain ⟨enc, e⟩ : ∃ enc, encodeWebAuthnPubKey sampleKey = .ok enc :=
    ⟨_, rfl⟩
  have hl := encodeWebAuthnPubKey_layout sampleKey enc e
  exact ⟨enc, e, hl.1, hl.2.1, hl.2.2.1, hl.2.2.2⟩

end Passkey
